import Mathlib

/-!
Shallow embedding of the IndevProxy interception plugin (indevproxy.py).

Requests are modelled as (host, path) pairs of character lists (the source
works over `bytes`; the paths involved are ASCII).  The external collaborators
(the `requests` HTTP client, the `json` module, `base64`) are modelled as an
environment of oracle functions; an outbound call that raises a transport
exception is `NetResult.exn`, one that returns a response object is
`NetResult.resp`.  Handlers return the list of HTTP responses queued to the
client (empty when the silent-failure paths are taken).
-/

namespace IndevProxy

/-- A response object returned by the external HTTP client (`requests.get`).
`text` stands for both the `.text` and `.content` fields of the source. -/
structure UpstreamResponse where
  status_code : Nat
  text : String
deriving DecidableEq

/-- Outcome of an outbound `requests.get` call: either a response object
arrived (with some status code), or the call raised a transport exception. -/
inductive NetResult where
  | resp (r : UpstreamResponse)
  | exn (msg : String)
deriving DecidableEq

/-- JSON values, as produced by `json.loads`.  Object fields are kept in
insertion order, matching Python dict iteration order.  Sizes in the asset
manifest are modelled as naturals (`Json.num`). -/
inductive Json where
  | str (s : String)
  | num (n : Nat)
  | obj (fields : List (String × Json))
  | arr (elems : List Json)

/-- Environment of external collaborators: the outbound HTTP client
(`requests.get`, keyed by URL), the JSON parser (`json.loads`, `none` models a
raised parse error) and the base64 decoder (`none` models a raised decode
error). -/
structure Env where
  netGet : String → NetResult
  parseJson : String → Option Json
  b64decode : String → Option String

/-- Lookup of a key in an object field list (Python `d[key]`). -/
def jsonLookup : List (String × Json) → String → Option Json
  | [], _ => none
  | (k, v) :: rest, key => if key = k then some v else jsonLookup rest key

/-- Python subscript `j[key]`: `none` models the raised `KeyError`/`TypeError`
when the key is absent or the value is not an object. -/
def jsonGet : Json → String → Option Json
  | Json.obj fields, key => jsonLookup fields key
  | _, _ => none

/-- Embeds `bytes.startswith`: `bytesStartsWith s p` is true when `p` is a
prefix of `s`. -/
def bytesStartsWith : List Char → List Char → Bool
  | _, [] => true
  | [], _ :: _ => false
  | x :: xs, y :: ys => if x = y then bytesStartsWith xs ys else false

/-- Embeds the Python `in` membership test on a list of byte strings. -/
def listContainsBytes : List (List Char) → List Char → Bool
  | [], _ => false
  | x :: xs, h => if h = x then true else listContainsBytes xs h

/-- Embeds `has_list_bytes_starting_with(l, s)` from the source: true when
`s` starts with some element of `l`. -/
def has_list_bytes_starting_with : List (List Char) → List Char → Bool
  | [], _ => false
  | i :: rest, s =>
      if bytesStartsWith s i then true else has_list_bytes_starting_with rest s

/-- The constant `PROCESS_HOST` from the source. -/
def PROCESS_HOST : List (List Char) :=
  ["www.minecraft.net".toList, "s3.amazonaws.com".toList,
   "skins.minecraft.net".toList]

/-- The constant `PROCESS_ENDPOINT` from the source. -/
def PROCESS_ENDPOINT : List (List Char) :=
  ["/game/".toList, "/skin/".toList, "/cloak/".toList, "/resources/".toList,
   "/MinecraftSkins/".toList, "/MinecraftCloaks/".toList,
   "/listmaps.jsp".toList]

/-- Embeds `bytes.find`: the lowest index of `c`, or `-1` when absent. -/
def pyFind (c : Char) : List Char → Int
  | [] => -1
  | x :: xs =>
      if x = c then 0
      else if pyFind c xs ≥ 0 then pyFind c xs + 1 else -1

/-- Embeds `bytes.rfind`: the highest index of `c`, or `-1` when absent. -/
def pyRfind (c : Char) : List Char → Int
  | [] => -1
  | x :: xs =>
      if pyRfind c xs ≥ 0 then pyRfind c xs + 1
      else if x = c then 0 else -1

/-- Normalisation of a Python slice index against a sequence of length `n`:
negative indices count from the end, and indices are clamped to `[0, n]`. -/
def pyIndexNorm (n : Nat) (i : Int) : Nat :=
  if i < 0 then (max ((n : Int) + i) 0).toNat else min i.toNat n

/-- Embeds the Python slice `s[a:b]`. -/
def pySlice (s : List Char) (a b : Int) : List Char :=
  (s.take (pyIndexNorm s.length b)).drop (pyIndexNorm s.length a)

/-- The username extraction of `handle_mc_skin` (lines 218-224 of the
source): path-style `path[path.rfind(b'/') + 1 : path.find(b'.')]` when
`query` is false, query-style `path[path.rfind(b'=') + 1 :]` when it is
true. -/
def extract_username (path : List Char) (query : Bool) : List Char :=
  if !query then
    pySlice path (pyRfind '/' path + 1) (pyFind '.' path)
  else
    pySlice path (pyRfind '=' path + 1) (path.length : Int)

/-- The substring of `s` strictly after the last occurrence of `c` (all of
`s` when `c` is absent).  Specification-side helper used to state what the
extraction computes. -/
def suffixAfterLast (c : Char) : List Char → List Char
  | [] => []
  | x :: xs =>
      if c ∈ xs then suffixAfterLast c xs
      else if x = c then xs
      else x :: suffixAfterLast c xs

/-- Which handler `handle_minecraft_request` dispatches to, together with the
`cloak`/`query` flags passed to `handle_mc_skin`. -/
inductive Dispatch where
  | auth
  | skin (cloak query : Bool)
  | res
  | listmaps
  | noHandler
deriving DecidableEq

/-- The dispatch if-chain of `handle_minecraft_request` (lines 284-301). -/
def handle_minecraft_request (path : List Char) : Dispatch :=
  if bytesStartsWith path ("/game/".toList) then
    Dispatch.auth
  else if bytesStartsWith path ("/skin/".toList) ||
      bytesStartsWith path ("/MinecraftSkins/".toList) then
    Dispatch.skin false false
  else if bytesStartsWith path ("/cloak/get.jsp?user=".toList) ||
      bytesStartsWith path ("/MinecraftCloaks/".toList) then
    Dispatch.skin true (!bytesStartsWith path ("/MinecraftCloaks/".toList))
  else if bytesStartsWith path ("/resources/".toList) then
    Dispatch.res
  else if bytesStartsWith path ("/listmaps.jsp".toList) then
    Dispatch.listmaps
  else
    Dispatch.noHandler

/-- The hook `before_upstream_connection`: `none` suppresses the upstream
connection, `some` forwards the request object unmodified. -/
def before_upstream_connection (host path : List Char) :
    Option (List Char × List Char) :=
  if listContainsBytes PROCESS_HOST host &&
      has_list_bytes_starting_with PROCESS_ENDPOINT path then
    none
  else
    some (host, path)

/-- The in-memory response caches: Python dicts from key string to the stored
`requests` response object.  Keys are only ever inserted when absent, so an
association list with first-match lookup is an exact model. -/
abbrev RespCache := List (String × UpstreamResponse)

/-- Python dict lookup `cache[key]` guarded by `key in cache`. -/
def cacheLookup : RespCache → String → Option UpstreamResponse
  | [], _ => none
  | (k, v) :: rest, key => if key = k then some v else cacheLookup rest key

/-- The URL built by `get_mc_uuid_from_username`. -/
def mcUuidUrl (username : String) : String :=
  "https://api.mojang.com/users/profiles/minecraft/" ++ username

/-- The URL built by `get_mc_profile_from_uuid`. -/
def mcProfileUrl (uuid : String) : String :=
  "https://sessionserver.mojang.com/session/minecraft/profile/" ++ uuid

/-- The tail of `get_mc_uuid_from_username` (lines 42-47): on a 200 response
parse the body and pull out the `id` field, otherwise raise.  The `id` field
is returned as a string, the only shape the upstream API produces. -/
def uuidResponseResult (env : Env) (r : UpstreamResponse) : Except String String :=
  if r.status_code = 200 then
    match env.parseJson r.text with
    | none => Except.error "json.loads failed"
    | some parsed =>
        match jsonGet parsed "id" with
        | some (Json.str s) => Except.ok s
        | some _ => Except.error "id field is not a string"
        | none => Except.error "KeyError: id"
  else
    Except.error "get_mc_uuid_from_username: status_code != httpStatusCodes.OK"

/-- Embeds `get_mc_uuid_from_username` (lines 33-47).  Returns the result
(`Except.error` models a raised exception), the updated cache, and whether an
outbound HTTP call was attempted.  A transport exception (`NetResult.exn`)
propagates before the cache assignment on line 40 runs. -/
def get_mc_uuid_from_username (env : Env) (cache : RespCache)
    (username : String) : Except String String × RespCache × Bool :=
  match cacheLookup cache username with
  | some player_uuid_response =>
      (uuidResponseResult env player_uuid_response, cache, false)
  | none =>
      match env.netGet (mcUuidUrl username) with
      | NetResult.exn m => (Except.error m, cache, true)
      | NetResult.resp r =>
          (uuidResponseResult env r, (username, r) :: cache, true)

/-- The tail of `get_mc_profile_from_uuid` (lines 61-65): on a 200 response
return the parsed body, otherwise raise. -/
def profileResponseResult (env : Env) (r : UpstreamResponse) :
    Except String Json :=
  if r.status_code = 200 then
    match env.parseJson r.text with
    | none => Except.error "json.loads failed"
    | some parsed => Except.ok parsed
  else
    Except.error "get_mc_profile_from_uuid: status_code != httpStatusCodes.OK"

/-- Embeds `get_mc_profile_from_uuid` (lines 52-65), with the same
conventions as `get_mc_uuid_from_username`. -/
def get_mc_profile_from_uuid (env : Env) (cache : RespCache) (uuid : String) :
    Except String Json × RespCache × Bool :=
  match cacheLookup cache uuid with
  | some player_profile_response =>
      (profileResponseResult env player_profile_response, cache, false)
  | none =>
      match env.netGet (mcProfileUrl uuid) with
      | NetResult.exn m => (Except.error m, cache, true)
      | NetResult.resp r =>
          (profileResponseResult env r, (uuid, r) :: cache, true)

/-- The property-scanning loop of `get_mc_player_textures_from_uuid`
(lines 76-81): the first property whose `name` equals `"textures"` has its
`value` base64-decoded and parsed as JSON; a property without a `name` key
raises; exhaustion raises the could-not-find error. -/
def findTexturesProperty (env : Env) : List Json → Except String Json
  | [] => Except.error "get_mc_player_textures_from_uuid: Could not find textures"
  | p :: ps =>
      match jsonGet p "name" with
      | none => Except.error "KeyError: name"
      | some (Json.str n) =>
          if n = "textures" then
            match jsonGet p "value" with
            | some (Json.str v) =>
                match env.b64decode v with
                | none => Except.error "base64 decode failed"
                | some decoded =>
                    match env.parseJson decoded with
                    | none => Except.error "json.loads failed"
                    | some j => Except.ok j
            | some _ => Except.error "TypeError: value"
            | none => Except.error "KeyError: value"
          else findTexturesProperty env ps
      | some _ => findTexturesProperty env ps

/-- Embeds `get_mc_player_textures_from_uuid` (lines 68-81).  The profile
cache is threaded through; the call flag of the inner lookup is dropped here
because only the identity lookups are counted by the claims. -/
def get_mc_player_textures_from_uuid (env : Env) (pc : RespCache)
    (uuid : String) : Except String Json × RespCache :=
  match get_mc_profile_from_uuid env pc uuid with
  | (Except.error e, pc2, _) => (Except.error e, pc2)
  | (Except.ok profile, pc2, _) =>
      match jsonGet profile "properties" with
      | some (Json.arr props) => (findTexturesProperty env props, pc2)
      | some _ => (Except.error "TypeError: properties", pc2)
      | none => (Except.error "KeyError: properties", pc2)

/-- Embeds `get_mc_player_skin_from_uuid` (lines 84-99): resolve the texture
record, extract `textures[subtype].url`, fetch it, and return the body bytes
on a 200 status. -/
def get_mc_player_skin_from_uuid (env : Env) (pc : RespCache)
    (uuid subtype : String) : Except String String × RespCache :=
  match get_mc_player_textures_from_uuid env pc uuid with
  | (Except.error e, pc2) => (Except.error e, pc2)
  | (Except.ok textures, pc2) =>
      match jsonGet textures "textures" with
      | none => (Except.error "KeyError: textures", pc2)
      | some sub =>
          match jsonGet sub subtype with
          | none => (Except.error "KeyError: subtype", pc2)
          | some entry =>
              match jsonGet entry "url" with
              | some (Json.str skin_url) =>
                  match env.netGet skin_url with
                  | NetResult.exn m => (Except.error m, pc2)
                  | NetResult.resp r =>
                      if r.status_code = 200 then (Except.ok r.text, pc2)
                      else
                        (Except.error "get_mc_player_skin_from_uuid: status_code != httpStatusCodes.OK", pc2)
              | some _ => (Except.error "TypeError: url", pc2)
              | none => (Except.error "KeyError: url", pc2)

/-- The constant `VERSION_MANIFEST` from the source. -/
def VERSION_MANIFEST : String :=
  "https://launchermeta.mojang.com/mc/game/version_manifest.json"

/-- The version-scanning loop of `get_mc_old_alpha_package_url`
(lines 110-114): the first version whose `type` equals `"old_alpha"` yields
its `url`; exhaustion raises. -/
def findOldAlpha : List Json → Except String String
  | [] => Except.error "get_mc_old_alpha_package_url: Could not grab an old_alpha package"
  | v :: vs =>
      match jsonGet v "type" with
      | none => Except.error "KeyError: type"
      | some (Json.str t) =>
          if t = "old_alpha" then
            match jsonGet v "url" with
            | some (Json.str u) => Except.ok u
            | some _ => Except.error "TypeError: url"
            | none => Except.error "KeyError: url"
          else findOldAlpha vs
      | some _ => findOldAlpha vs

/-- Embeds `get_mc_old_alpha_package_url` (lines 102-116).  The second
component counts the outbound HTTP calls attempted. -/
def get_mc_old_alpha_package_url (env : Env) : Except String String × Nat :=
  match env.netGet VERSION_MANIFEST with
  | NetResult.exn m => (Except.error m, 1)
  | NetResult.resp r =>
      if r.status_code = 200 then
        match env.parseJson r.text with
        | none => (Except.error "json.loads failed", 1)
        | some j =>
            match jsonGet j "versions" with
            | some (Json.arr versions) => (findOldAlpha versions, 1)
            | some _ => (Except.error "TypeError: versions", 1)
            | none => (Except.error "KeyError: versions", 1)
      else
        (Except.error "get_mc_old_alpha_package_url: status_code != httpStatusCodes.OK", 1)

/-- Embeds `get_mc_asset_url_from_package_url` (lines 119-129). -/
def get_mc_asset_url_from_package_url (env : Env) (url : String) :
    Except String String × Nat :=
  match env.netGet url with
  | NetResult.exn m => (Except.error m, 1)
  | NetResult.resp r =>
      if r.status_code = 200 then
        match env.parseJson r.text with
        | none => (Except.error "json.loads failed", 1)
        | some j =>
            match jsonGet j "assetIndex" with
            | none => (Except.error "KeyError: assetIndex", 1)
            | some ai =>
                match jsonGet ai "url" with
                | some (Json.str u) => (Except.ok u, 1)
                | some _ => (Except.error "TypeError: url", 1)
                | none => (Except.error "KeyError: url", 1)
      else
        (Except.error "get_mc_asset_url_from_package_url: status_code != httpStatusCodes.OK", 1)

/-- Embeds `get_mc_resources` (lines 132-161).  The persisted cache file
`pre-1.6.json` is modelled as `Option String` (its raw contents when it
exists).  Returns the result, the file state afterwards, and the number of
outbound HTTP calls attempted.  Note the source writes the file before
parsing the fetched body, so the file is persisted even when that final parse
raises. -/
def get_mc_resources (env : Env) (fileCache : Option String) :
    Except String Json × Option String × Nat :=
  match fileCache with
  | some contents =>
      match env.parseJson contents with
      | some resources => (Except.ok resources, some contents, 0)
      | none => (Except.error "json.load failed", some contents, 0)
  | none =>
      match get_mc_old_alpha_package_url env with
      | (Except.error e, n1) => (Except.error e, none, n1)
      | (Except.ok old_alpha_package_url, n1) =>
          match get_mc_asset_url_from_package_url env old_alpha_package_url with
          | (Except.error e, n2) => (Except.error e, none, n1 + n2)
          | (Except.ok alpha_assets_url, n2) =>
              match env.netGet alpha_assets_url with
              | NetResult.exn m => (Except.error m, none, n1 + n2 + 1)
              | NetResult.resp r =>
                  if r.status_code = 200 then
                    match env.parseJson r.text with
                    | some j => (Except.ok j, some r.text, n1 + n2 + 1)
                    | none =>
                        (Except.error "json.loads failed", some r.text, n1 + n2 + 1)
                  else
                    (Except.error "get_mc_resources: status_code != httpStatusCodes.OK", none, n1 + n2 + 1)

/-- The accumulation loop of `convert_mc_resources_to_old_format`
(lines 165-167), over the field list of the `objects` mapping. -/
def convertLines : List (String × Json) → Option (List String)
  | [] => some []
  | (res, v) :: rest =>
      match jsonGet v "size" with
      | some (Json.num size) =>
          match convertLines rest with
          | some tail => some ((res ++ "," ++ toString size ++ ",0") :: tail)
          | none => none
      | some _ => none
      | none => none

/-- Embeds `convert_mc_resources_to_old_format` (lines 164-169): one line
`<name>,<size>,0` per entry of `resources[objects]`, joined by newlines in
iteration order.  `none` models a raised exception (missing or malformed
field). -/
def convert_mc_resources_to_old_format (resources : Json) : Option String :=
  match jsonGet resources "objects" with
  | some (Json.obj objs) =>
      match convertLines objs with
      | some old_format => some (String.intercalate "\n" old_format)
      | none => none
  | some _ => none
  | none => none

/-- An HTTP response queued to the client via
`self.client.queue(build_http_response(...))`. -/
structure HttpResponse where
  status_code : Nat
  body : String
  connectionClose : Bool
deriving DecidableEq

/-- The two in-memory response caches, as a pair. -/
structure Caches where
  uuidCache : RespCache
  profileCache : RespCache
deriving DecidableEq

/-- The response queued by `handle_mc_auth` (lines 198-207). -/
def handle_mc_auth : HttpResponse :=
  { status_code := 200, body := "0", connectionClose := true }

/-- Embeds `handle_mc_skin` (lines 209-247): extract the username, resolve
the UUID, fetch the skin or cape, and queue it; every failure in the chain is
caught and queues nothing. -/
def handle_mc_skin (env : Env) (cs : Caches) (path : List Char)
    (cloak query : Bool) : List HttpResponse × Caches :=
  let subtype := if !cloak then "SKIN" else "CAPE"
  let username := String.mk (extract_username path query)
  match get_mc_uuid_from_username env cs.uuidCache username with
  | (Except.error _, uc, _) =>
      ([], { uuidCache := uc, profileCache := cs.profileCache })
  | (Except.ok player_uuid, uc, _) =>
      match get_mc_player_skin_from_uuid env cs.profileCache player_uuid subtype with
      | (Except.error _, pc) => ([], { uuidCache := uc, profileCache := pc })
      | (Except.ok skin, pc) =>
          ([{ status_code := 200, body := skin, connectionClose := true }],
           { uuidCache := uc, profileCache := pc })

/-- Embeds `handle_mc_res` (lines 249-269): only the exact path
`/resources/` is served; failures in the chain are caught and queue
nothing. -/
def handle_mc_res (env : Env) (fileCache : Option String) (path : List Char) :
    List HttpResponse × Option String :=
  if path = ("/resources/".toList) then
    match get_mc_resources env fileCache with
    | (Except.error _, fc, _) => ([], fc)
    | (Except.ok new_resources, fc, _) =>
        match convert_mc_resources_to_old_format new_resources with
        | none => ([], fc)
        | some resources_old_format =>
            ([{ status_code := 200, body := resources_old_format,
                connectionClose := true }], fc)
  else
    ([], fileCache)

/-- The response queued by `handle_mc_listmaps` (lines 271-279). -/
def handle_mc_listmaps : HttpResponse :=
  { status_code := 200, body := "-;-;-;-;-", connectionClose := true }

/-- The mutable state visible to a dispatched request: the two in-memory
caches and the persisted manifest file. -/
structure ProxyState where
  caches : Caches
  fileCache : Option String
deriving DecidableEq

/-- The responses queued by `handle_minecraft_request` (lines 281-301)
together with the state afterwards, one branch per arm of the dispatch
if-chain; the no-handler arm only logs. -/
def minecraft_request_responses (env : Env) (st : ProxyState)
    (path : List Char) : List HttpResponse × ProxyState :=
  match handle_minecraft_request path with
  | Dispatch.auth => ([handle_mc_auth], st)
  | Dispatch.skin cloak query =>
      let hs := handle_mc_skin env st.caches path cloak query
      (hs.1, { st with caches := hs.2 })
  | Dispatch.res =>
      let hr := handle_mc_res env st.fileCache path
      (hr.1, { st with fileCache := hr.2 })
  | Dispatch.listmaps => ([handle_mc_listmaps], st)
  | Dispatch.noHandler => ([], st)

/-- Embeds `handle_client_request` (lines 181-190): forward the request
unmodified unless the host is allow-listed and the path matches a known
prefix; in that case dispatch it and drop the original request.  Returns the
forwarding decision, the responses queued, and the state afterwards. -/
def handle_client_request (env : Env) (st : ProxyState)
    (host path : List Char) :
    Option (List Char × List Char) × List HttpResponse × ProxyState :=
  if !(listContainsBytes PROCESS_HOST host) ||
      !(has_list_bytes_starting_with PROCESS_ENDPOINT path) then
    (some (host, path), [], st)
  else
    let hr := minecraft_request_responses env st path
    (none, hr.1, hr.2)

/-- The invocation loop for repeated username lookups: runs
`get_mc_uuid_from_username` on each username in turn, threading the cache,
and records the key of every invocation that attempted an outbound call. -/
def runUuidLookups (env : Env) : List String → RespCache → RespCache × List String
  | [], cache => (cache, [])
  | u :: us, cache =>
      let step := get_mc_uuid_from_username env cache u
      let rest := runUuidLookups env us step.2.1
      (rest.1, (if step.2.2 then [u] else []) ++ rest.2)

/-- The invocation loop for repeated UUID lookups, as `runUuidLookups`. -/
def runProfileLookups (env : Env) : List String → RespCache → RespCache × List String
  | [], cache => (cache, [])
  | u :: us, cache =>
      let step := get_mc_profile_from_uuid env cache u
      let rest := runProfileLookups env us step.2.1
      (rest.1, (if step.2.2 then [u] else []) ++ rest.2)

/-- A concrete environment whose outbound calls all raise transport
exceptions, used to instantiate universally quantified theorems at closed
inputs. -/
def envNoNet : Env :=
  { netGet := fun _ => NetResult.exn "no network",
    parseJson := fun _ => none,
    b64decode := fun _ => none }

/-- A concrete environment whose outbound calls all answer with a 404
response object, used to instantiate universally quantified theorems at
closed inputs. -/
def env404 : Env :=
  { netGet := fun _ => NetResult.resp { status_code := 404, text := "" },
    parseJson := fun _ => none,
    b64decode := fun _ => none }

/-- A concrete environment whose JSON parser wraps the raw text as a JSON
string, used to instantiate theorems about the manifest file cache at closed
inputs. -/
def envParseStr : Env :=
  { netGet := fun _ => NetResult.exn "no network",
    parseJson := fun s => some (Json.str s),
    b64decode := fun _ => none }

/-- A one-entry manifest JSON used by concrete witnesses. -/
def manifestJson : Json :=
  Json.obj [("objects", Json.obj [("a.txt", Json.obj [("size", Json.num 10)])])]

/-- A concrete environment whose JSON parser always returns the one-entry
manifest, used to instantiate theorems at closed inputs. -/
def envManifest : Env :=
  { netGet := fun _ => NetResult.exn "no network",
    parseJson := fun _ => some manifestJson,
    b64decode := fun _ => none }

lemma bytesStartsWith_iff : ∀ s p : List Char, bytesStartsWith s p = true ↔ p <+: s := by
  intro s
  induction s with
  | nil =>
      intro p
      cases p with
      | nil => simp [bytesStartsWith]
      | cons y ys => simp [bytesStartsWith]
  | cons x xs ih =>
      intro p
      cases p with
      | nil => simp [bytesStartsWith]
      | cons y ys =>
          by_cases h : x = y
          · subst h
            simp [bytesStartsWith, List.cons_prefix_cons, ih]
          · simp [bytesStartsWith, h, List.cons_prefix_cons]
            intro h2
            exact absurd h2.symm h

lemma bytesStartsWith_incomp {p q : List Char}
    (h1 : bytesStartsWith q p = false) (h2 : bytesStartsWith p q = false)
    (s : List Char) (hp : bytesStartsWith s p = true) :
    bytesStartsWith s q = false := by
  cases hq : bytesStartsWith s q with
  | false => rfl
  | true =>
      exfalso
      have hps := (bytesStartsWith_iff s p).1 hp
      have hqs := (bytesStartsWith_iff s q).1 hq
      rcases List.prefix_or_prefix_of_prefix hps hqs with h | h
      · have hb := (bytesStartsWith_iff q p).2 h
        rw [h1] at hb
        exact Bool.false_ne_true hb
      · have hb := (bytesStartsWith_iff p q).2 h
        rw [h2] at hb
        exact Bool.false_ne_true hb

lemma pyFind_lower (c : Char) : ∀ s : List Char, -1 ≤ pyFind c s := by
  intro s
  induction s with
  | nil => simp [pyFind]
  | cons x xs ih =>
      simp only [pyFind]
      split_ifs <;> omega

lemma pyFind_nonneg_iff (c : Char) : ∀ s : List Char, 0 ≤ pyFind c s ↔ c ∈ s := by
  intro s
  induction s with
  | nil => simp [pyFind]
  | cons x xs ih =>
      simp only [pyFind, List.mem_cons]
      split_ifs with hx hr
      · subst hx
        simp
      · constructor
        · intro _
          exact Or.inr (ih.1 hr)
        · intro _
          omega
      · constructor
        · intro h
          omega
        · intro h
          rcases h with h | h
          · exact absurd h.symm hx
          · exact absurd (ih.2 h) hr

lemma pyRfind_lower (c : Char) : ∀ s : List Char, -1 ≤ pyRfind c s := by
  intro s
  induction s with
  | nil => simp [pyRfind]
  | cons x xs ih =>
      simp only [pyRfind]
      split_ifs <;> omega

lemma pyRfind_lt_length (c : Char) : ∀ s : List Char, pyRfind c s < (s.length : Int) := by
  intro s
  induction s with
  | nil => simp [pyRfind]
  | cons x xs ih =>
      simp only [pyRfind, List.length_cons]
      split_ifs <;> push_cast <;> omega

lemma pyRfind_nonneg_iff (c : Char) : ∀ s : List Char, 0 ≤ pyRfind c s ↔ c ∈ s := by
  intro s
  induction s with
  | nil => simp [pyRfind]
  | cons x xs ih =>
      simp only [pyRfind, List.mem_cons]
      split_ifs with hr hx
      · constructor
        · intro _
          exact Or.inr (ih.1 hr)
        · intro _
          omega
      · subst hx
        simp
      · constructor
        · intro h
          omega
        · intro h
          rcases h with h | h
          · exact absurd h.symm hx
          · exact absurd (ih.2 h) hr

lemma suffixAfterLast_of_not_mem (c : Char) :
    ∀ s : List Char, c ∉ s → suffixAfterLast c s = s := by
  intro s
  induction s with
  | nil => intro _; rfl
  | cons x xs ih =>
      intro h
      have hx : ¬ x = c := fun hc => h (by simp [hc])
      have hxs : c ∉ xs := fun hc => h (List.mem_cons_of_mem x hc)
      simp only [suffixAfterLast]
      rw [if_neg hxs, if_neg hx, ih hxs]

lemma drop_pyRfind (c : Char) :
    ∀ s : List Char, s.drop ((pyRfind c s + 1).toNat) = suffixAfterLast c s := by
  intro s
  induction s with
  | nil => simp [pyRfind, suffixAfterLast]
  | cons x xs ih =>
      simp only [pyRfind, suffixAfterLast]
      by_cases hr : pyRfind c xs ≥ 0
      · rw [if_pos hr, if_pos ((pyRfind_nonneg_iff c xs).1 hr)]
        have hn : (pyRfind c xs + 1 + 1).toNat = (pyRfind c xs + 1).toNat + 1 := by
          omega
        rw [hn, List.drop_succ_cons, ih]
      · rw [if_neg hr, if_neg (fun hm => hr ((pyRfind_nonneg_iff c xs).2 hm))]
        by_cases hx : x = c
        · rw [if_pos hx, if_pos hx]
          norm_num
        · rw [if_neg hx, if_neg hx]
          have hxs : c ∉ xs := fun hm => hr ((pyRfind_nonneg_iff c xs).2 hm)
          norm_num
          exact (suffixAfterLast_of_not_mem c xs hxs).symm

lemma pyIndexNorm_of_nonneg_le {n : Nat} {i : Int} (h0 : 0 ≤ i)
    (hn : i ≤ (n : Int)) : pyIndexNorm n i = i.toNat := by
  unfold pyIndexNorm
  rw [if_neg (by omega)]
  omega

lemma extract_username_query_eq (path : List Char) :
    extract_username path true = suffixAfterLast '=' path := by
  have h0 : (0 : Int) ≤ pyRfind '=' path + 1 := by
    have := pyRfind_lower '=' path
    omega
  have hn : pyRfind '=' path + 1 ≤ (path.length : Int) := by
    have := pyRfind_lt_length '=' path
    omega
  have hstop : pyIndexNorm path.length ((path.length : Int)) = path.length := by
    unfold pyIndexNorm
    rw [if_neg (by omega)]
    omega
  simp only [extract_username, Bool.not_true, Bool.false_eq_true, if_false, pySlice,
    hstop, pyIndexNorm_of_nonneg_le h0 hn, List.take_length]
  exact drop_pyRfind '=' path

lemma extract_username_path_no_dot (path : List Char) (h : '.' ∉ path) :
    extract_username path false = (suffixAfterLast '/' path).dropLast := by
  have hfind : pyFind '.' path = -1 := by
    have h1 := pyFind_lower '.' path
    have h2 : ¬ 0 ≤ pyFind '.' path := fun hc => h ((pyFind_nonneg_iff '.' path).1 hc)
    omega
  have h0 : (0 : Int) ≤ pyRfind '/' path + 1 := by
    have := pyRfind_lower '/' path
    omega
  have hn : pyRfind '/' path + 1 ≤ (path.length : Int) := by
    have := pyRfind_lt_length '/' path
    omega
  have hstop : pyIndexNorm path.length (-1) = path.length - 1 := by
    unfold pyIndexNorm
    rw [if_pos (by omega)]
    omega
  simp only [extract_username, Bool.not_false, if_true, pySlice, hfind, hstop,
    pyIndexNorm_of_nonneg_le h0 hn]
  rw [List.drop_take, ← drop_pyRfind '/' path, List.dropLast_eq_take,
    List.length_drop]
  congr 1
  omega

lemma dispatch_of_skin (path : List Char)
    (h : bytesStartsWith path ("/skin/".toList) = true) :
    handle_minecraft_request path = Dispatch.skin false false := by
  have hg : bytesStartsWith path ("/game/".toList) = false :=
    bytesStartsWith_incomp (by decide) (by decide) path h
  unfold handle_minecraft_request
  rw [hg, h]
  simp

lemma dispatch_of_minecraftskins (path : List Char)
    (h : bytesStartsWith path ("/MinecraftSkins/".toList) = true) :
    handle_minecraft_request path = Dispatch.skin false false := by
  have hg : bytesStartsWith path ("/game/".toList) = false :=
    bytesStartsWith_incomp (by decide) (by decide) path h
  unfold handle_minecraft_request
  rw [hg, h]
  simp

lemma dispatch_of_cloak_query (path : List Char)
    (h : bytesStartsWith path ("/cloak/get.jsp?user=".toList) = true) :
    handle_minecraft_request path = Dispatch.skin true true := by
  have hg : bytesStartsWith path ("/game/".toList) = false :=
    bytesStartsWith_incomp (by decide) (by decide) path h
  have hs : bytesStartsWith path ("/skin/".toList) = false :=
    bytesStartsWith_incomp (by decide) (by decide) path h
  have hms : bytesStartsWith path ("/MinecraftSkins/".toList) = false :=
    bytesStartsWith_incomp (by decide) (by decide) path h
  have hmc : bytesStartsWith path ("/MinecraftCloaks/".toList) = false :=
    bytesStartsWith_incomp (by decide) (by decide) path h
  unfold handle_minecraft_request
  rw [hg, hs, hms, hmc, h]
  simp

lemma dispatch_of_minecraftcloaks (path : List Char)
    (h : bytesStartsWith path ("/MinecraftCloaks/".toList) = true) :
    handle_minecraft_request path = Dispatch.skin true false := by
  have hg : bytesStartsWith path ("/game/".toList) = false :=
    bytesStartsWith_incomp (by decide) (by decide) path h
  have hs : bytesStartsWith path ("/skin/".toList) = false :=
    bytesStartsWith_incomp (by decide) (by decide) path h
  have hms : bytesStartsWith path ("/MinecraftSkins/".toList) = false :=
    bytesStartsWith_incomp (by decide) (by decide) path h
  unfold handle_minecraft_request
  rw [hg, hs, hms, h]
  simp

/-- Claim C1, corrected.  Extraction mode is selected per matched prefix, but
not as the claim states it: the dispatcher passes `query := false` for both
`/skin/` and `/MinecraftSkins/` paths, so only `/cloak/get.jsp?user=` uses
query-style extraction (substring after the last `=`); `/skin/`,
`/MinecraftSkins/` and `/MinecraftCloaks/` all use path-style extraction.  In
particular `/MinecraftSkins/Notch.png` extracts `Notch`, while
`/skin/get.jsp?user=Notch` extracts `get`. -/
theorem claim_C1_amended :
    (∀ path : List Char, bytesStartsWith path ("/skin/".toList) = true →
        handle_minecraft_request path = Dispatch.skin false false)
    ∧ (∀ path : List Char, bytesStartsWith path ("/MinecraftSkins/".toList) = true →
        handle_minecraft_request path = Dispatch.skin false false)
    ∧ (∀ path : List Char, bytesStartsWith path ("/cloak/get.jsp?user=".toList) = true →
        handle_minecraft_request path = Dispatch.skin true true)
    ∧ (∀ path : List Char, bytesStartsWith path ("/MinecraftCloaks/".toList) = true →
        handle_minecraft_request path = Dispatch.skin true false)
    ∧ (∀ path : List Char, extract_username path true = suffixAfterLast '=' path)
    ∧ extract_username ("/skin/get.jsp?user=Notch".toList) false = "get".toList
    ∧ extract_username ("/MinecraftSkins/Notch.png".toList) false = "Notch".toList :=
  ⟨dispatch_of_skin, dispatch_of_minecraftskins, dispatch_of_cloak_query,
   dispatch_of_minecraftcloaks, extract_username_query_eq, by decide, by decide⟩

/-- Witness for claim C1: the amended dispatch and extraction facts at
concrete paths. -/
theorem claim_C1_witness :
    handle_minecraft_request ("/skin/Notch.png".toList) = Dispatch.skin false false
    ∧ handle_minecraft_request ("/cloak/get.jsp?user=Notch".toList) = Dispatch.skin true true
    ∧ handle_minecraft_request ("/MinecraftCloaks/Notch.png".toList) = Dispatch.skin true false
    ∧ extract_username ("/cloak/get.jsp?user=Notch".toList) true
        = suffixAfterLast '=' ("/cloak/get.jsp?user=Notch".toList) :=
  ⟨claim_C1_amended.1 ("/skin/Notch.png".toList) (by decide),
   claim_C1_amended.2.2.1 ("/cloak/get.jsp?user=Notch".toList) (by decide),
   claim_C1_amended.2.2.2.1 ("/MinecraftCloaks/Notch.png".toList) (by decide),
   claim_C1_amended.2.2.2.2.1 ("/cloak/get.jsp?user=Notch".toList)⟩

/-- Counterexample to claim C1 as stated: the path `/skin/get.jsp?user=Notch`
is dispatched with `query := false`, so the extracted username is `get`
(path-style), not `Notch`. -/
theorem claim_C1_counterexample :
    handle_minecraft_request ("/skin/get.jsp?user=Notch".toList)
        = Dispatch.skin false false
    ∧ extract_username ("/skin/get.jsp?user=Notch".toList) false = "get".toList
    ∧ ("get".toList ≠ "Notch".toList) := by
  refine ⟨by decide, by decide, by decide⟩

/-- Claim C2, confirmed.  For every (host, path) pair: when the host is
allow-listed and the path matches some prefix of the table, both hooks
suppress the request (`before_upstream_connection` returns `None` and
`handle_client_request` drops the original request); in every other case both
hooks return the original request object unmodified and nothing is queued. -/
theorem claim_C2_handled_iff (env : Env) (st : ProxyState)
    (host path : List Char) :
    ((listContainsBytes PROCESS_HOST host = true ∧
        has_list_bytes_starting_with PROCESS_ENDPOINT path = true) →
      before_upstream_connection host path = none ∧
      (handle_client_request env st host path).1 = none)
    ∧ (¬ (listContainsBytes PROCESS_HOST host = true ∧
        has_list_bytes_starting_with PROCESS_ENDPOINT path = true) →
      before_upstream_connection host path = some (host, path) ∧
      handle_client_request env st host path = (some (host, path), [], st)) := by
  constructor
  · rintro ⟨hh, hp⟩
    rw [before_upstream_connection, handle_client_request, hh, hp]
    simp
  · intro h
    rw [before_upstream_connection, handle_client_request]
    cases hh : listContainsBytes PROCESS_HOST host with
    | false => simp
    | true =>
        cases hp : has_list_bytes_starting_with PROCESS_ENDPOINT path with
        | false => simp
        | true => exact absurd ⟨hh, hp⟩ h

/-- Witness for claim C2: a matched request is suppressed by both hooks, and
a request to an unknown host is forwarded unmodified by both hooks. -/
theorem claim_C2_witness :
    (before_upstream_connection ("www.minecraft.net".toList) ("/game/x".toList) = none
      ∧ (handle_client_request envNoNet
          { caches := { uuidCache := [], profileCache := [] }, fileCache := none }
          ("www.minecraft.net".toList) ("/game/x".toList)).1 = none)
    ∧ (before_upstream_connection ("example.com".toList) ("/game/x".toList)
          = some ("example.com".toList, "/game/x".toList)
      ∧ handle_client_request envNoNet
          { caches := { uuidCache := [], profileCache := [] }, fileCache := none }
          ("example.com".toList) ("/game/x".toList)
          = (some ("example.com".toList, "/game/x".toList), [],
             { caches := { uuidCache := [], profileCache := [] }, fileCache := none })) :=
  ⟨(claim_C2_handled_iff envNoNet
      { caches := { uuidCache := [], profileCache := [] }, fileCache := none }
      ("www.minecraft.net".toList) ("/game/x".toList)).1 ⟨by decide, by decide⟩,
   (claim_C2_handled_iff envNoNet
      { caches := { uuidCache := [], profileCache := [] }, fileCache := none }
      ("example.com".toList) ("/game/x".toList)).2 (by decide)⟩

/-- Claim C9, confirmed.  With path-style extraction, a path containing no
`.` makes `path.find` return `-1`, which as a slice end index truncates one
character: the extracted username is the substring after the last `/` with
its final character dropped; `/MinecraftSkins/Notch` yields `Notc`. -/
theorem claim_C9_no_dot_truncates (path : List Char) (h : '.' ∉ path) :
    extract_username path false = (suffixAfterLast '/' path).dropLast :=
  extract_username_path_no_dot path h

/-- Witness for claim C9: the truncation at the concrete path
`/MinecraftSkins/Notch`, whose extracted username is `Notc`. -/
theorem claim_C9_witness :
    extract_username ("/MinecraftSkins/Notch".toList) false
      = (suffixAfterLast '/' ("/MinecraftSkins/Notch".toList)).dropLast
    ∧ extract_username ("/MinecraftSkins/Notch".toList) false = "Notc".toList :=
  ⟨claim_C9_no_dot_truncates ("/MinecraftSkins/Notch".toList) (by decide),
   by decide⟩

/-- Claim C10, confirmed.  A request whose host is allow-listed and whose
path starts with `/cloak/` but not with `/cloak/get.jsp?user=` is suppressed
by both hooks (the upstream connection is blocked and the original request is
dropped), yet the dispatcher falls through to the no-handler branch and no
response bytes are ever queued. -/
theorem claim_C10_cloak_gap (env : Env) (st : ProxyState) (host path : List Char)
    (hhost : listContainsBytes PROCESS_HOST host = true)
    (hcloak : bytesStartsWith path ("/cloak/".toList) = true)
    (hnotget : bytesStartsWith path ("/cloak/get.jsp?user=".toList) = false) :
    before_upstream_connection host path = none
    ∧ handle_client_request env st host path = (none, [], st)
    ∧ handle_minecraft_request path = Dispatch.noHandler := by
  have hg : bytesStartsWith path ("/game/".toList) = false :=
    bytesStartsWith_incomp (by decide) (by decide) path hcloak
  have hs : bytesStartsWith path ("/skin/".toList) = false :=
    bytesStartsWith_incomp (by decide) (by decide) path hcloak
  have hms : bytesStartsWith path ("/MinecraftSkins/".toList) = false :=
    bytesStartsWith_incomp (by decide) (by decide) path hcloak
  have hmc : bytesStartsWith path ("/MinecraftCloaks/".toList) = false :=
    bytesStartsWith_incomp (by decide) (by decide) path hcloak
  have hr : bytesStartsWith path ("/resources/".toList) = false :=
    bytesStartsWith_incomp (by decide) (by decide) path hcloak
  have hl : bytesStartsWith path ("/listmaps.jsp".toList) = false :=
    bytesStartsWith_incomp (by decide) (by decide) path hcloak
  have hdisp : handle_minecraft_request path = Dispatch.noHandler := by
    unfold handle_minecraft_request
    rw [hg, hs, hms, hmc, hnotget, hr, hl]
    simp
  have hmatch : has_list_bytes_starting_with PROCESS_ENDPOINT path = true := by
    simp only [PROCESS_ENDPOINT, has_list_bytes_starting_with, hg, hs, hcloak]
    simp
  refine ⟨?_, ?_, hdisp⟩
  · rw [before_upstream_connection, hhost, hmatch]
    simp
  · rw [handle_client_request, hhost, hmatch]
    simp [minecraft_request_responses, hdisp]

/-- Witness for claim C10: the concrete request
`www.minecraft.net/cloak/get.jsp?u=Notch` is suppressed by both hooks and
dispatched to no handler. -/
theorem claim_C10_witness :
    before_upstream_connection ("www.minecraft.net".toList)
        ("/cloak/get.jsp?u=Notch".toList) = none
    ∧ handle_client_request envNoNet
        { caches := { uuidCache := [], profileCache := [] }, fileCache := none }
        ("www.minecraft.net".toList) ("/cloak/get.jsp?u=Notch".toList)
        = (none, [],
           { caches := { uuidCache := [], profileCache := [] }, fileCache := none })
    ∧ handle_minecraft_request ("/cloak/get.jsp?u=Notch".toList)
        = Dispatch.noHandler :=
  claim_C10_cloak_gap envNoNet
    { caches := { uuidCache := [], profileCache := [] }, fileCache := none }
    ("www.minecraft.net".toList) ("/cloak/get.jsp?u=Notch".toList)
    (by decide) (by decide) (by decide)

lemma uuid_hit_no_call (env : Env) (cache : RespCache) (u : String)
    (h : cacheLookup cache u ≠ none) :
    (get_mc_uuid_from_username env cache u).2.1 = cache ∧
    (get_mc_uuid_from_username env cache u).2.2 = false := by
  unfold get_mc_uuid_from_username
  cases hk : cacheLookup cache u with
  | some r => simp
  | none => exact absurd hk h

lemma uuid_lookup_preserves (env : Env) (k : String) (cache : RespCache)
    (u : String) (h : cacheLookup cache u ≠ none) :
    cacheLookup (get_mc_uuid_from_username env cache k).2.1 u ≠ none := by
  unfold get_mc_uuid_from_username
  cases hk : cacheLookup cache k with
  | some r => simpa using h
  | none =>
      cases hn : env.netGet (mcUuidUrl k) with
      | exn m => simpa using h
      | resp r =>
          simp only [cacheLookup]
          by_cases he : u = k
          · simp [he]
          · simp only [if_neg he]
            exact h

lemma runUuid_count_zero (env : Env) (u : String) :
    ∀ us cache, cacheLookup cache u ≠ none →
      List.count u (runUuidLookups env us cache).2 = 0 := by
  intro us
  induction us with
  | nil =>
      intro cache _
      simp [runUuidLookups]
  | cons k us ih =>
      intro cache h
      simp only [runUuidLookups, List.count_append]
      have hrest := ih (get_mc_uuid_from_username env cache k).2.1
        (uuid_lookup_preserves env k cache u h)
      rw [hrest]
      by_cases hku : k = u
      · subst hku
        rw [(uuid_hit_no_call env cache k h).2]
        simp
      · split_ifs <;> simp [List.count_cons, hku]

lemma runUuid_count_le_one (env : Env) (u : String) (r : UpstreamResponse)
    (hnet : env.netGet (mcUuidUrl u) = NetResult.resp r) :
    ∀ us cache, List.count u (runUuidLookups env us cache).2 ≤ 1 := by
  intro us
  induction us with
  | nil =>
      intro cache
      simp [runUuidLookups]
  | cons k us ih =>
      intro cache
      simp only [runUuidLookups, List.count_append]
      by_cases hku : k = u
      · subst hku
        cases hk : cacheLookup cache k with
        | some v =>
            have h2 := uuid_hit_no_call env cache k (by rw [hk]; exact fun hc => Option.noConfusion hc)
            rw [h2.2, h2.1]
            simpa using ih cache
        | none =>
            have hstep : get_mc_uuid_from_username env cache k
                = (uuidResponseResult env r, (k, r) :: cache, true) := by
              unfold get_mc_uuid_from_username
              rw [hk, hnet]
            rw [hstep]
            have hz := runUuid_count_zero env k us ((k, r) :: cache)
              (by simp [cacheLookup])
            simp [List.count_cons, hz]
      · have hzero : List.count u
            (if (get_mc_uuid_from_username env cache k).2.2 then [k] else []) = 0 := by
          split_ifs <;> simp [List.count_cons, hku]
        rw [hzero]
        simpa using ih (get_mc_uuid_from_username env cache k).2.1

lemma profile_hit_no_call (env : Env) (cache : RespCache) (u : String)
    (h : cacheLookup cache u ≠ none) :
    (get_mc_profile_from_uuid env cache u).2.1 = cache ∧
    (get_mc_profile_from_uuid env cache u).2.2 = false := by
  unfold get_mc_profile_from_uuid
  cases hk : cacheLookup cache u with
  | some r => simp
  | none => exact absurd hk h

lemma profile_lookup_preserves (env : Env) (k : String) (cache : RespCache)
    (u : String) (h : cacheLookup cache u ≠ none) :
    cacheLookup (get_mc_profile_from_uuid env cache k).2.1 u ≠ none := by
  unfold get_mc_profile_from_uuid
  cases hk : cacheLookup cache k with
  | some r => simpa using h
  | none =>
      cases hn : env.netGet (mcProfileUrl k) with
      | exn m => simpa using h
      | resp r =>
          simp only [cacheLookup]
          by_cases he : u = k
          · simp [he]
          · simp only [if_neg he]
            exact h

lemma runProfile_count_zero (env : Env) (u : String) :
    ∀ us cache, cacheLookup cache u ≠ none →
      List.count u (runProfileLookups env us cache).2 = 0 := by
  intro us
  induction us with
  | nil =>
      intro cache _
      simp [runProfileLookups]
  | cons k us ih =>
      intro cache h
      simp only [runProfileLookups, List.count_append]
      have hrest := ih (get_mc_profile_from_uuid env cache k).2.1
        (profile_lookup_preserves env k cache u h)
      rw [hrest]
      by_cases hku : k = u
      · subst hku
        rw [(profile_hit_no_call env cache k h).2]
        simp
      · split_ifs <;> simp [List.count_cons, hku]

lemma runProfile_count_le_one (env : Env) (u : String) (r : UpstreamResponse)
    (hnet : env.netGet (mcProfileUrl u) = NetResult.resp r) :
    ∀ us cache, List.count u (runProfileLookups env us cache).2 ≤ 1 := by
  intro us
  induction us with
  | nil =>
      intro cache
      simp [runProfileLookups]
  | cons k us ih =>
      intro cache
      simp only [runProfileLookups, List.count_append]
      by_cases hku : k = u
      · subst hku
        cases hk : cacheLookup cache k with
        | some v =>
            have h2 := profile_hit_no_call env cache k (by rw [hk]; exact fun hc => Option.noConfusion hc)
            rw [h2.2, h2.1]
            simpa using ih cache
        | none =>
            have hstep : get_mc_profile_from_uuid env cache k
                = (profileResponseResult env r, (k, r) :: cache, true) := by
              unfold get_mc_profile_from_uuid
              rw [hk, hnet]
            rw [hstep]
            have hz := runProfile_count_zero env k us ((k, r) :: cache)
              (by simp [cacheLookup])
            simp [List.count_cons, hz]
      · have hzero : List.count u
            (if (get_mc_profile_from_uuid env cache k).2.2 then [k] else []) = 0 := by
          split_ifs <;> simp [List.count_cons, hku]
        rw [hzero]
        simpa using ih (get_mc_profile_from_uuid env cache k).2.1

/-- Claim C3, confirmed.  Whenever the upstream identity endpoint for a key
returns a response object (success or failure status alike), at most one
outbound identity call is attempted for that key across any sequence of
lookups in one process lifetime: the response record is stored in the
in-memory cache under the key on the first lookup, and every later lookup of
the same key reads the cached record without calling upstream.  This holds
for the username lookup and likewise for the UUID lookup. -/
theorem claim_C3_at_most_one_lookup :
    (∀ (env : Env) (us : List String) (u : String) (r : UpstreamResponse),
        env.netGet (mcUuidUrl u) = NetResult.resp r →
        List.count u (runUuidLookups env us []).2 ≤ 1)
    ∧ (∀ (env : Env) (us : List String) (u : String) (r : UpstreamResponse),
        env.netGet (mcProfileUrl u) = NetResult.resp r →
        List.count u (runProfileLookups env us []).2 ≤ 1)
    ∧ (∀ (env : Env) (u : String) (r : UpstreamResponse),
        env.netGet (mcUuidUrl u) = NetResult.resp r →
        cacheLookup (get_mc_uuid_from_username env [] u).2.1 u = some r)
    ∧ (∀ (env : Env) (cache : RespCache) (u : String) (v : UpstreamResponse),
        cacheLookup cache u = some v →
        get_mc_uuid_from_username env cache u
          = (uuidResponseResult env v, cache, false))
    ∧ (∀ (env : Env) (u : String) (r : UpstreamResponse),
        env.netGet (mcProfileUrl u) = NetResult.resp r →
        cacheLookup (get_mc_profile_from_uuid env [] u).2.1 u = some r)
    ∧ (∀ (env : Env) (cache : RespCache) (u : String) (v : UpstreamResponse),
        cacheLookup cache u = some v →
        get_mc_profile_from_uuid env cache u
          = (profileResponseResult env v, cache, false)) := by
  refine ⟨?_, ?_, ?_, ?_, ?_, ?_⟩
  · intro env us u r hnet
    exact runUuid_count_le_one env u r hnet us []
  · intro env us u r hnet
    exact runProfile_count_le_one env u r hnet us []
  · intro env u r hnet
    simp [get_mc_uuid_from_username, cacheLookup, hnet]
  · intro env cache u v h
    unfold get_mc_uuid_from_username
    rw [h]
  · intro env u r hnet
    simp [get_mc_profile_from_uuid, cacheLookup, hnet]
  · intro env cache u v h
    unfold get_mc_profile_from_uuid
    rw [h]

/-- Witness for claim C3: with an upstream that always answers 404, three
repeated lookups of the same username attempt at most one outbound call, and
the 404 record is cached. -/
theorem claim_C3_witness :
    List.count "Notch" (runUuidLookups env404 ["Notch", "Notch", "Notch"] []).2 ≤ 1
    ∧ cacheLookup (get_mc_uuid_from_username env404 [] "Notch").2.1 "Notch"
        = some { status_code := 404, text := "" }
    ∧ List.count "u1" (runProfileLookups env404 ["u1", "u1"] []).2 ≤ 1 :=
  ⟨claim_C3_at_most_one_lookup.1 env404 ["Notch", "Notch", "Notch"] "Notch"
      { status_code := 404, text := "" } rfl,
   claim_C3_at_most_one_lookup.2.2.1 env404 "Notch"
      { status_code := 404, text := "" } rfl,
   claim_C3_at_most_one_lookup.2.1 env404 ["u1", "u1"] "u1"
      { status_code := 404, text := "" } rfl⟩

/-- Claim C8, confirmed.  When the outbound call raises a transport exception
instead of returning a response object, no cache entry is stored for the key
and a later lookup of the same key attempts another outbound call; a call
that returns a response object with any status code is cached. -/
theorem claim_C8_exception_not_cached :
    (∀ (env : Env) (cache : RespCache) (u : String) (m : String),
        env.netGet (mcUuidUrl u) = NetResult.exn m →
        cacheLookup cache u = none →
        get_mc_uuid_from_username env cache u = (Except.error m, cache, true) ∧
        (get_mc_uuid_from_username env
            (get_mc_uuid_from_username env cache u).2.1 u).2.2 = true)
    ∧ (∀ (env : Env) (cache : RespCache) (u : String) (m : String),
        env.netGet (mcProfileUrl u) = NetResult.exn m →
        cacheLookup cache u = none →
        get_mc_profile_from_uuid env cache u = (Except.error m, cache, true) ∧
        (get_mc_profile_from_uuid env
            (get_mc_profile_from_uuid env cache u).2.1 u).2.2 = true)
    ∧ (∀ (env : Env) (cache : RespCache) (u : String) (r : UpstreamResponse),
        env.netGet (mcUuidUrl u) = NetResult.resp r →
        cacheLookup cache u = none →
        (get_mc_uuid_from_username env cache u).2.1 = (u, r) :: cache)
    ∧ (∀ (env : Env) (cache : RespCache) (u : String) (r : UpstreamResponse),
        env.netGet (mcProfileUrl u) = NetResult.resp r →
        cacheLookup cache u = none →
        (get_mc_profile_from_uuid env cache u).2.1 = (u, r) :: cache) := by
  refine ⟨?_, ?_, ?_, ?_⟩
  · intro env cache u m hnet hmiss
    have hstep : get_mc_uuid_from_username env cache u = (Except.error m, cache, true) := by
      unfold get_mc_uuid_from_username
      rw [hmiss, hnet]
    refine ⟨hstep, ?_⟩
    rw [hstep]
    unfold get_mc_uuid_from_username
    rw [hmiss, hnet]
  · intro env cache u m hnet hmiss
    have hstep : get_mc_profile_from_uuid env cache u = (Except.error m, cache, true) := by
      unfold get_mc_profile_from_uuid
      rw [hmiss, hnet]
    refine ⟨hstep, ?_⟩
    rw [hstep]
    unfold get_mc_profile_from_uuid
    rw [hmiss, hnet]
  · intro env cache u r hnet hmiss
    unfold get_mc_uuid_from_username
    rw [hmiss, hnet]
  · intro env cache u r hnet hmiss
    unfold get_mc_profile_from_uuid
    rw [hmiss, hnet]

/-- Witness for claim C8: with an upstream that always raises, a lookup
leaves the cache empty and a retry attempts another outbound call. -/
theorem claim_C8_witness :
    (get_mc_uuid_from_username envNoNet [] "Notch"
        = (Except.error "no network", [], true)
      ∧ (get_mc_uuid_from_username envNoNet
          (get_mc_uuid_from_username envNoNet [] "Notch").2.1 "Notch").2.2 = true)
    ∧ (get_mc_profile_from_uuid envNoNet [] "u1"
        = (Except.error "no network", [], true)
      ∧ (get_mc_profile_from_uuid envNoNet
          (get_mc_profile_from_uuid envNoNet [] "u1").2.1 "u1").2.2 = true)
    ∧ (get_mc_uuid_from_username env404 [] "Notch").2.1
        = [("Notch", { status_code := 404, text := "" })] :=
  ⟨claim_C8_exception_not_cached.1 envNoNet [] "Notch" "no network" rfl rfl,
   claim_C8_exception_not_cached.2.1 envNoNet [] "u1" "no network" rfl rfl,
   claim_C8_exception_not_cached.2.2.1 env404 [] "Notch"
      { status_code := 404, text := "" } rfl rfl⟩

/-- Specification-side constructor of a manifest JSON from a clean list of
(name, size) entries, used to state what `convert_mc_resources_to_old_format`
produces. -/
def mkManifest (entries : List (String × Nat)) : Json :=
  Json.obj [("objects",
    Json.obj (entries.map (fun e => (e.1, Json.obj [("size", Json.num e.2)]))))]

/-- The legacy line for one manifest entry: `<name>,<size>,0`. -/
def mkLegacyLine (e : String × Nat) : String :=
  e.1 ++ "," ++ toString e.2 ++ ",0"

lemma convertLines_map (entries : List (String × Nat)) :
    convertLines (entries.map (fun e => (e.1, Json.obj [("size", Json.num e.2)])))
      = some (entries.map mkLegacyLine) := by
  induction entries with
  | nil => rfl
  | cons e es ih =>
      simp [convertLines, jsonGet, jsonLookup, ih, mkLegacyLine]

/-- Claim C5, confirmed.  `convert_mc_resources_to_old_format` is a pure
function producing one line `<name>,<size>,0` per entry of the manifest's
`objects` mapping, joined by newlines in the mapping's iteration order; on
the two-entry example manifest the output is exactly
`a.txt,10,0` + newline + `b.txt,20,0`. -/
theorem claim_C5_legacy_format :
    (∀ entries : List (String × Nat),
        convert_mc_resources_to_old_format (mkManifest entries)
          = some (String.intercalate "\n" (entries.map mkLegacyLine)))
    ∧ convert_mc_resources_to_old_format
        (Json.obj [("objects",
            Json.obj [("a.txt", Json.obj [("size", Json.num 10)]),
                      ("b.txt", Json.obj [("size", Json.num 20)])])])
        = some ("a.txt,10,0" ++ "\n" ++ "b.txt,20,0") := by
  constructor
  · intro entries
    simp [mkManifest, convert_mc_resources_to_old_format, jsonGet, jsonLookup,
      convertLines_map entries]
  · rfl

lemma get_mc_resources_file_or_error (env : Env) (fileCache : Option String) :
    (∃ c, (get_mc_resources env fileCache).2.1 = some c)
    ∨ (∃ e, (get_mc_resources env fileCache).1 = Except.error e) := by
  cases fileCache with
  | some c => cases hp : env.parseJson c <;> simp [get_mc_resources, hp]
  | none =>
      simp only [get_mc_resources]
      split
      · exact Or.inr ⟨_, rfl⟩
      · split
        · exact Or.inr ⟨_, rfl⟩
        · split
          · exact Or.inr ⟨_, rfl⟩
          · split
            · split
              · exact Or.inl ⟨_, rfl⟩
              · exact Or.inl ⟨_, rfl⟩
            · exact Or.inr ⟨_, rfl⟩

/-- Claim C6, confirmed.  When the persisted cache file exists,
`get_mc_resources` performs zero outbound calls, leaves the file unchanged,
and returns the parsed persisted copy; consequently, after any invocation
that succeeds, a second invocation performs zero additional outbound
calls. -/
theorem claim_C6_manifest_idempotent :
    (∀ (env : Env) (c : String),
        (get_mc_resources env (some c)).2.2 = 0
        ∧ (get_mc_resources env (some c)).2.1 = some c
        ∧ (∀ j, env.parseJson c = some j →
            (get_mc_resources env (some c)).1 = Except.ok j))
    ∧ (∀ (env : Env) (fileCache : Option String) (j : Json),
        (get_mc_resources env fileCache).1 = Except.ok j →
        (get_mc_resources env (get_mc_resources env fileCache).2.1).2.2 = 0) := by
  constructor
  · intro env c
    refine ⟨?_, ?_, ?_⟩
    · cases hp : env.parseJson c <;> simp [get_mc_resources, hp]
    · cases hp : env.parseJson c <;> simp [get_mc_resources, hp]
    · intro j hj
      simp [get_mc_resources, hj]
  · intro env fileCache j h
    rcases get_mc_resources_file_or_error env fileCache with ⟨c, hc⟩ | ⟨e, he⟩
    · rw [hc]
      cases hp : env.parseJson c <;> simp [get_mc_resources, hp]
    · exact Except.noConfusion (he.symm.trans h)

/-- Witness for claim C6: with a persisted copy present, the parsed copy is
returned with zero outbound calls, and a second invocation after a successful
first one performs zero calls. -/
theorem claim_C6_witness :
    (get_mc_resources envParseStr (some "cached")).2.2 = 0
    ∧ (get_mc_resources envParseStr (some "cached")).2.1 = some "cached"
    ∧ (get_mc_resources envParseStr (some "cached")).1 = Except.ok (Json.str "cached")
    ∧ (get_mc_resources envParseStr
        (get_mc_resources envParseStr (some "cached")).2.1).2.2 = 0 :=
  ⟨(claim_C6_manifest_idempotent.1 envParseStr "cached").1,
   (claim_C6_manifest_idempotent.1 envParseStr "cached").2.1,
   (claim_C6_manifest_idempotent.1 envParseStr "cached").2.2 (Json.str "cached") rfl,
   claim_C6_manifest_idempotent.2 envParseStr (some "cached") (Json.str "cached")
     ((claim_C6_manifest_idempotent.1 envParseStr "cached").2.2 (Json.str "cached") rfl)⟩

/-- Claim C7, confirmed.  `handle_mc_res` synthesizes a response only when
the path equals exactly `/resources/`: any other path queues nothing and
leaves the file cache untouched, while the exact path runs the
load-or-fetch-manifest chain and, when it succeeds, responds 200 with the
legacy-format text. -/
theorem claim_C7_exact_resources_path :
    (∀ (env : Env) (fileCache : Option String) (path : List Char),
        path ≠ ("/resources/".toList) →
        handle_mc_res env fileCache path = ([], fileCache))
    ∧ (∀ (env : Env) (fileCache : Option String) (j : Json) (s : String),
        (get_mc_resources env fileCache).1 = Except.ok j →
        convert_mc_resources_to_old_format j = some s →
        (handle_mc_res env fileCache ("/resources/".toList)).1
          = [{ status_code := 200, body := s, connectionClose := true }]) := by
  constructor
  · intro env fc path h
    unfold handle_mc_res
    rw [if_neg h]
  · intro env fc j s hok hconv
    rcases hr : get_mc_resources env fc with ⟨res, fc2, n⟩
    rw [hr] at hok
    simp only at hok
    unfold handle_mc_res
    rw [if_pos rfl, hr]
    subst hok
    simp [hconv]

/-- Witness for claim C7: `/resources/foo` produces no response, and the
exact path `/resources/` responds 200 with the converted manifest. -/
theorem claim_C7_witness :
    handle_mc_res envManifest (some "cached") ("/resources/foo".toList)
      = ([], some "cached")
    ∧ (handle_mc_res envManifest (some "cached") ("/resources/".toList)).1
      = [{ status_code := 200, body := "a.txt,10,0", connectionClose := true }] :=
  ⟨claim_C7_exact_resources_path.1 envManifest (some "cached")
      ("/resources/foo".toList) (by decide),
   claim_C7_exact_resources_path.2 envManifest (some "cached") manifestJson
      "a.txt,10,0" rfl rfl⟩

/-- Claim C4, confirmed.  Every failure raised in a handler's call chain is
caught and queues no response bytes to the client: `handle_mc_skin` queues
nothing when the UUID lookup fails or when the skin fetch fails, and
`handle_mc_res` queues nothing when the manifest load or the format
conversion fails. -/
theorem claim_C4_silent_failure :
    (∀ (env : Env) (cs : Caches) (path : List Char) (cloak query : Bool) (e : String),
        (get_mc_uuid_from_username env cs.uuidCache
            (String.mk (extract_username path query))).1 = Except.error e →
        (handle_mc_skin env cs path cloak query).1 = [])
    ∧ (∀ (env : Env) (cs : Caches) (path : List Char) (cloak query : Bool)
          (player_uuid : String) (uc : RespCache) (b : Bool) (e : String),
        get_mc_uuid_from_username env cs.uuidCache
            (String.mk (extract_username path query))
          = (Except.ok player_uuid, uc, b) →
        (get_mc_player_skin_from_uuid env cs.profileCache player_uuid
            (if !cloak then "SKIN" else "CAPE")).1 = Except.error e →
        (handle_mc_skin env cs path cloak query).1 = [])
    ∧ (∀ (env : Env) (fileCache : Option String) (path : List Char) (e : String),
        (get_mc_resources env fileCache).1 = Except.error e →
        (handle_mc_res env fileCache path).1 = [])
    ∧ (∀ (env : Env) (fileCache : Option String) (path : List Char) (j : Json),
        (get_mc_resources env fileCache).1 = Except.ok j →
        convert_mc_resources_to_old_format j = none →
        (handle_mc_res env fileCache path).1 = []) := by
  refine ⟨?_, ?_, ?_, ?_⟩
  · intro env cs path cloak query e h
    rcases hu : get_mc_uuid_from_username env cs.uuidCache
        (String.mk (extract_username path query)) with ⟨res, uc, b⟩
    rw [hu] at h
    simp only at h
    simp only [handle_mc_skin, hu]
    subst h
    simp
  · intro env cs path cloak query player_uuid uc b e hu hs
    rcases h2 : get_mc_player_skin_from_uuid env cs.profileCache player_uuid
        (if !cloak then "SKIN" else "CAPE") with ⟨res2, pc⟩
    rw [h2] at hs
    simp only at hs
    simp only [handle_mc_skin, hu]
    subst hs
    have h2c : get_mc_player_skin_from_uuid env cs.profileCache player_uuid
        (if cloak = false then "SKIN" else "CAPE") = (Except.error e, pc) := by
      simpa using h2
    simp [h2c]
  · intro env fc path e h
    rcases hr : get_mc_resources env fc with ⟨res, fc2, n⟩
    rw [hr] at h
    simp only at h
    by_cases hp : path = ("/resources/".toList)
    · subst hp
      unfold handle_mc_res
      rw [if_pos rfl, hr]
      subst h
      simp
    · unfold handle_mc_res
      rw [if_neg hp]
  · intro env fc path j h hconv
    rcases hr : get_mc_resources env fc with ⟨res, fc2, n⟩
    rw [hr] at h
    simp only at h
    by_cases hp : path = ("/resources/".toList)
    · subst hp
      unfold handle_mc_res
      rw [if_pos rfl, hr]
      subst h
      simp [hconv]
    · unfold handle_mc_res
      rw [if_neg hp]

/-- Witness for claim C4: with an upstream that always raises, the skin
handler and the resource handler queue nothing. -/
theorem claim_C4_witness :
    (handle_mc_skin envNoNet { uuidCache := [], profileCache := [] }
        ("/MinecraftSkins/Notch.png".toList) false false).1 = []
    ∧ (handle_mc_res envNoNet none ("/resources/".toList)).1 = [] :=
  ⟨claim_C4_silent_failure.1 envNoNet { uuidCache := [], profileCache := [] }
      ("/MinecraftSkins/Notch.png".toList) false false "no network" rfl,
   claim_C4_silent_failure.2.2.1 envNoNet none ("/resources/".toList)
      "no network" rfl⟩

end IndevProxy
